import Mathlib

/-!
Verification of the real-time private-messaging subsystem of the chat
backend, as implemented in src/sockets/privateChatHandlers.js.

Modelling conventions:
- JS strings are `List Char` (abbreviated `Str`); user ids, socket ids and
  message contents are all strings in the source.
- The two process-wide JS `Map`s (`usuariosConectados`, `rateLimits`) are
  association lists with the `set` / `get` / `delete` semantics of a JS
  `Map` (`mapSet`, `mapGet`, `mapDelete` below).
- The Supabase `mensajes` table is a `List Message`; its mutations are the
  three statements the handlers issue: the insert in `send_message`, the
  unconditional update to estado `entregado` in `send_message`, and the
  conditional update to estado `visto` in `mark_seen`.
- The external `xss` npm library is an uninterpreted sanitizer parameter
  `xssFn : Str → Str`: theorems about the content pipeline are stated for
  every such function.
- Each socket handler is a pure function from its inputs (the process
  state plus collaborator-provided values such as `Date.now()` and the row
  id assigned by the store) to the new state and the ordered list of
  `Action`s it performs (database writes and `emit` calls), in program
  order.
-/

abbrev Str := List Char

abbrev UserId := Str

abbrev SocketId := Str

/-- A JS value as far as the handlers inspect it: either a string or a
value of some other type (the handlers only test `typeof x === "string"`
and falsiness). -/
inductive JsVal where
  | vstr (s : Str)
  | vother
deriving DecidableEq

/-- JS `Map.prototype.get`: value stored for the key, if present. -/
def mapGet {β : Type} (m : List (Str × β)) (k : Str) : Option β :=
  match m with
  | [] => none
  | (k', v) :: rest => if k' = k then some v else mapGet rest k

/-- JS `Map.prototype.set`: replace the value of an existing key in
place, otherwise append the new entry. -/
def mapSet {β : Type} (m : List (Str × β)) (k : Str) (v : β) : List (Str × β) :=
  match m with
  | [] => [(k, v)]
  | (k', v') :: rest => if k' = k then (k, v) :: rest else (k', v') :: mapSet rest k v

/-- JS `Map.prototype.delete`: remove the entry with the key. -/
def mapDelete {β : Type} (m : List (Str × β)) (k : Str) : List (Str × β) :=
  match m with
  | [] => []
  | (k', v') :: rest => if k' = k then mapDelete rest k else (k', v') :: mapDelete rest k

theorem mapGet_mapSet_same {β : Type} (m : List (Str × β)) (k : Str) (v : β) :
    mapGet (mapSet m k v) k = some v := by
  induction m with
  | nil => simp [mapSet, mapGet]
  | cons hd tl ih =>
    obtain ⟨k', v'⟩ := hd
    by_cases h : k' = k
    · simp [mapSet, mapGet, h]
    · simp [mapSet, mapGet, h, ih]

theorem mapGet_mapSet_other {β : Type} (m : List (Str × β)) (k k' : Str) (v : β)
    (h : k ≠ k') : mapGet (mapSet m k v) k' = mapGet m k' := by
  induction m with
  | nil => simp [mapSet, mapGet, h]
  | cons hd tl ih =>
    obtain ⟨k₀, v₀⟩ := hd
    by_cases h0 : k₀ = k
    · subst h0
      simp [mapSet, mapGet, h]
    · simp only [mapSet, if_neg h0]
      by_cases h1 : k₀ = k'
      · simp [mapGet, h1]
      · simp [mapGet, h1, ih]

theorem mapGet_mapDelete_same {β : Type} (m : List (Str × β)) (k : Str) :
    mapGet (mapDelete m k) k = none := by
  induction m with
  | nil => simp [mapDelete, mapGet]
  | cons hd tl ih =>
    obtain ⟨k', v'⟩ := hd
    by_cases h : k' = k
    · simp [mapDelete, h, ih]
    · simp [mapDelete, mapGet, h, ih]

theorem mapGet_mapDelete_other {β : Type} (m : List (Str × β)) (k k' : Str)
    (h : k ≠ k') : mapGet (mapDelete m k) k' = mapGet m k' := by
  induction m with
  | nil => simp [mapDelete]
  | cons hd tl ih =>
    obtain ⟨k₀, v₀⟩ := hd
    by_cases h0 : k₀ = k
    · subst h0
      simp [mapDelete, mapGet, ih, h]
    · simp only [mapDelete, if_neg h0]
      by_cases h1 : k₀ = k'
      · simp [mapGet, h1]
      · simp [mapGet, h1, ih]

/-! ## Rate limiter (privateChatHandlers.js lines 9-36) -/

/-- One entry of the in-memory rate limit map: userId to count and window
expiry, as in line 9-12 of the source. -/
structure RateLimitEntry where
  count : Nat
  resetAt : Nat
deriving DecidableEq

def RATE_LIMIT_MAX : Nat := 100

def RATE_LIMIT_WINDOW : Nat := 60 * 1000

/-- Model of `checkRateLimit(userId)`, privateChatHandlers.js lines 17-36,
with `Date.now()` passed in as `now` and the module-level `rateLimits`
map threaded explicitly. Returns the boolean result together with the
updated map. -/
def checkRateLimit (now : Nat) (rateLimits : List (Str × RateLimitEntry))
    (userId : UserId) : Bool × List (Str × RateLimitEntry) :=
  match mapGet rateLimits userId with
  | none => (true, mapSet rateLimits userId ⟨1, now + RATE_LIMIT_WINDOW⟩)
  | some userLimit =>
    if now > userLimit.resetAt then
      (true, mapSet rateLimits userId ⟨1, now + RATE_LIMIT_WINDOW⟩)
    else if userLimit.count ≥ RATE_LIMIT_MAX then
      (false, rateLimits)
    else
      (true, mapSet rateLimits userId ⟨userLimit.count + 1, userLimit.resetAt⟩)

/-! ## Content sanitization (privateChatHandlers.js lines 41-49) -/

/-- The ECMAScript WhiteSpace and LineTerminator code points removed by
`String.prototype.trim`. -/
def jsWhitespace : List Char :=
  ['\t', '\n', '\x0b', '\x0c', '\r', ' ', '\xa0', ' ', ' ',
   ' ', ' ', ' ', ' ', ' ', ' ', ' ',
   ' ', ' ', ' ', ' ', ' ', ' ', ' ',
   '　', '﻿']

def jsIsWhitespace (c : Char) : Bool := jsWhitespace.contains c

/-- JS `String.prototype.trim`: strip leading and trailing whitespace. -/
def jsTrim (s : Str) : Str :=
  ((s.dropWhile jsIsWhitespace).reverse.dropWhile jsIsWhitespace).reverse

/-- Model of `sanitizeMessage(content)`, privateChatHandlers.js lines 41-49:
`null` for non-strings, for trimmed length 0 and for trimmed length over
5000; otherwise the xss-sanitized trimmed content. The external `xss`
library is the parameter `xssFn`. -/
def sanitizeMessage (xssFn : Str → Str) (content : JsVal) : Option Str :=
  match content with
  | .vother => none
  | .vstr s =>
    let trimmed := jsTrim s
    if trimmed.length = 0 ∨ trimmed.length > 5000 then none
    else some (xssFn trimmed)

/-! ## Message rows of the `mensajes` table -/

/-- The delivery state column `estado` of a row of `mensajes`:
`enviado` (SENT), `entregado` (DELIVERED), `visto` (SEEN). -/
inductive Estado where
  | enviado
  | entregado
  | visto
deriving DecidableEq

/-- Position of a state in the order SENT < DELIVERED < SEEN. -/
def Estado.rank : Estado → Nat
  | .enviado => 0
  | .entregado => 1
  | .visto => 2

/-- One row of the `mensajes` table, with the columns the handlers read
and write. -/
structure Message where
  id : Nat
  sender_id : UserId
  receiver_id : UserId
  contenido : Str
  estado : Estado
  created_at : Nat
deriving DecidableEq

/-- The update issued by send_message lines 158-161: set `estado`
on every row whose id matches, with no condition on the current state. -/
def updateEstadoById (db : List Message) (id : Nat) (e : Estado) : List Message :=
  db.map (fun m => if m.id = id then { m with estado := e } else m)

/-- The update issued by mark_seen lines 199-203: set `estado` to
`visto` on rows whose id matches and whose `receiver_id` is the caller. -/
def updateSeen (db : List Message) (messageId : Nat) (uid : UserId) : List Message :=
  db.map (fun m =>
    if m.id = messageId ∧ m.receiver_id = uid then { m with estado := .visto } else m)

/-- Rows affected by the mark_seen update. -/
def seenAffected (db : List Message) (messageId : Nat) (uid : UserId) : List Message :=
  db.filter (fun m => m.id = messageId ∧ m.receiver_id = uid)

/-- Row with the given id, as returned by the store. -/
def getById (db : List Message) (id : Nat) : Option Message :=
  db.find? (fun m => m.id = id)

/-! ## Actions of a handler execution -/

/-- Payload of the `message_sent` acknowledgement (send_message lines
175-181): `{ id, to, content, created_at, estado }`. -/
structure MessageSentPayload where
  id : Nat
  toId : UserId
  content : Str
  created_at : Nat
  estado : Estado
deriving DecidableEq

/-- A server-to-client event emitted by the private chat handlers. -/
inductive Event where
  | errorEv (message : Str)
  | newMessage (id : Nat) (fromId : UserId) (content : Str) (created_at : Nat)
  | messageDelivered (messageId : Nat)
  | messageSent (payload : MessageSentPayload)
  | messageSeen (messageId : Nat)
deriving DecidableEq

/-- One step a handler performs, in program order: a write to the
`mensajes` table or an `emit` on a socket. -/
inductive ChatAction where
  | dbInsert (m : Message)
  | dbUpdateDelivered (id : Nat)
  | dbUpdateSeen (id : Nat) (receiverId : UserId)
  | emit (target : SocketId) (e : Event)
deriving DecidableEq

/-! ## send_message handler (privateChatHandlers.js lines 102-187) -/

/-- Result of one handler execution: the new `mensajes` table, the new
`rateLimits` map, and the actions performed in program order. -/
structure SendResult where
  db : List Message
  rateLimits : List (Str × RateLimitEntry)
  actions : List ChatAction
deriving DecidableEq

/-- The send_message handler, lines 102-187 of the source, in program
order: rate limit check, recipient check (`!to || typeof to !== "string"`),
content sanitization, insert with estado `enviado`, then the presence
lookup deciding between the delivered branch (emit `new_message` to the
receiver socket, update to `entregado`, emit `message_delivered`) and
the offline branch, and finally the `message_sent` acknowledgement.
`now` is `Date.now()`, `nextId` is the row id assigned by the store, and
`insertOk` is whether the insert succeeds. -/
def sendMessage (xssFn : Str → Str) (conectados : List (Str × SocketId))
    (db : List Message) (rateLimits : List (Str × RateLimitEntry))
    (userId : UserId) (senderSocket : SocketId)
    (toVal content : JsVal) (now nextId : Nat) (insertOk : Bool) : SendResult :=
  let rl := (checkRateLimit now rateLimits userId).2
  if (checkRateLimit now rateLimits userId).1 = false then
    ⟨db, rl, [.emit senderSocket (.errorEv "Límite de mensajes excedido. Intenta en un minuto.".data)]⟩
  else
    match toVal with
    | .vother => ⟨db, rl, [.emit senderSocket (.errorEv "Destinatario inválido".data)]⟩
    | .vstr toId =>
      if toId = [] then
        ⟨db, rl, [.emit senderSocket (.errorEv "Destinatario inválido".data)]⟩
      else
        match sanitizeMessage xssFn content with
        | none =>
          ⟨db, rl, [.emit senderSocket (.errorEv "Mensaje inválido. Debe tener entre 1 y 5000 caracteres.".data)]⟩
        | some sanitized =>
          if insertOk = false then
            ⟨db, rl, [.emit senderSocket (.errorEv "Error al enviar mensaje".data)]⟩
          else
            let newMsg : Message := ⟨nextId, userId, toId, sanitized, .enviado, now⟩
            match mapGet conectados toId with
            | some receiverSocket =>
              ⟨updateEstadoById (db ++ [newMsg]) nextId .entregado, rl,
               [.dbInsert newMsg,
                .emit receiverSocket (.newMessage nextId userId sanitized now),
                .dbUpdateDelivered nextId,
                .emit senderSocket (.messageDelivered nextId),
                .emit senderSocket (.messageSent ⟨nextId, toId, sanitized, now, .entregado⟩)]⟩
            | none =>
              ⟨db ++ [newMsg], rl,
               [.dbInsert newMsg,
                .emit senderSocket (.messageSent ⟨nextId, toId, sanitized, now, .enviado⟩)]⟩

/-! ## mark_seen handler (privateChatHandlers.js lines 192-231) -/

/-- The mark_seen handler, lines 192-231 of the source: reject a missing
`messageId`; otherwise issue the conditional update to `visto`
constrained to `receiver_id = userId`. When the update affects exactly
one row, the row's `sender_id` is selected and, if that sender is in the
presence map, `message_seen` is emitted to it; when it affects zero rows
(or not exactly one), `.single()` yields an error and the handler emits
one generic error to the caller. -/
def markSeen (conectados : List (Str × SocketId)) (db : List Message)
    (userId : UserId) (callerSocket : SocketId) (messageId : Option Nat) :
    List Message × List ChatAction :=
  match messageId with
  | none => (db, [.emit callerSocket (.errorEv "ID de mensaje requerido".data)])
  | some mid =>
    let db' := updateSeen db mid userId
    match seenAffected db mid userId with
    | [row] =>
      let notif :=
        match mapGet conectados row.sender_id with
        | some senderSocket => [ChatAction.emit senderSocket (.messageSeen mid)]
        | none => []
      (db', .dbUpdateSeen mid userId :: notif)
    | _ =>
      (db', [.dbUpdateSeen mid userId,
             .emit callerSocket (.errorEv "Error al actualizar estado".data)])

/-! ## Presence registration and the disconnect handler -/

/-- Registration at connection time, line 91 of the source:
`usuariosConectados.set(userId, socket)`. -/
def connectionRegister (conectados : List (Str × SocketId)) (userId : UserId)
    (sock : SocketId) : List (Str × SocketId) :=
  mapSet conectados userId sock

/-- The disconnect handler, lines 260-271 of the source:
`usuariosConectados.delete(userId)`. The socket whose disconnect fired
the handler is taken as an argument to record that the code ignores it:
the deletion is keyed on the identity alone. -/
def disconnectRemove (conectados : List (Str × SocketId)) (userId : UserId)
    (_disconnectingSock : SocketId) : List (Str × SocketId) :=
  mapDelete conectados userId

/-! ## Helper lemmas on the handler executions -/

/-- Boolean test: the action is an emit of a `new_message` event to the
given socket. -/
def isNewMessageTo (sock : SocketId) : ChatAction → Bool
  | .emit t (.newMessage _ _ _ _) => t = sock
  | _ => false

/-- Boolean test: the action is an emit of a `message_sent` event to the
given socket. -/
def isMessageSentTo (sock : SocketId) : ChatAction → Bool
  | .emit t (.messageSent _) => t = sock
  | _ => false

/-- Boolean test: the action emits one of the three notification events
of the send path (`new_message`, `message_delivered`, `message_sent`). -/
def isNotifyEmit : ChatAction → Bool
  | .emit _ (.newMessage _ _ _ _) => true
  | .emit _ (.messageDelivered _) => true
  | .emit _ (.messageSent _) => true
  | _ => false

/-- Boolean test: the action is the persistence write creating a row. -/
def isCreateInsert : ChatAction → Bool
  | .dbInsert _ => true
  | _ => false

theorem sendMessage_success_present (xssFn : Str → Str)
    (conectados : List (Str × SocketId)) (db : List Message)
    (rl : List (Str × RateLimitEntry)) (uid : UserId) (ssock : SocketId)
    (toId : Str) (content : JsVal) (now nextId : Nat) (rsock : SocketId) (s : Str)
    (hrl : (checkRateLimit now rl uid).1 = true)
    (hto : toId ≠ [])
    (hsan : sanitizeMessage xssFn content = some s)
    (hpres : mapGet conectados toId = some rsock) :
    sendMessage xssFn conectados db rl uid ssock (.vstr toId) content now nextId true =
      ⟨updateEstadoById (db ++ [⟨nextId, uid, toId, s, .enviado, now⟩]) nextId .entregado,
       (checkRateLimit now rl uid).2,
       [.dbInsert ⟨nextId, uid, toId, s, .enviado, now⟩,
        .emit rsock (.newMessage nextId uid s now),
        .dbUpdateDelivered nextId,
        .emit ssock (.messageDelivered nextId),
        .emit ssock (.messageSent ⟨nextId, toId, s, now, .entregado⟩)]⟩ := by
  simp [sendMessage, hrl, hsan, hpres, hto]

theorem sendMessage_success_absent (xssFn : Str → Str)
    (conectados : List (Str × SocketId)) (db : List Message)
    (rl : List (Str × RateLimitEntry)) (uid : UserId) (ssock : SocketId)
    (toId : Str) (content : JsVal) (now nextId : Nat) (s : Str)
    (hrl : (checkRateLimit now rl uid).1 = true)
    (hto : toId ≠ [])
    (hsan : sanitizeMessage xssFn content = some s)
    (hpres : mapGet conectados toId = none) :
    sendMessage xssFn conectados db rl uid ssock (.vstr toId) content now nextId true =
      ⟨db ++ [⟨nextId, uid, toId, s, .enviado, now⟩],
       (checkRateLimit now rl uid).2,
       [.dbInsert ⟨nextId, uid, toId, s, .enviado, now⟩,
        .emit ssock (.messageSent ⟨nextId, toId, s, now, .enviado⟩)]⟩ := by
  simp [sendMessage, hrl, hsan, hpres, hto]

theorem getById_updateEstado_append (db : List Message) (m : Message) (e : Estado)
    (hfresh : ∀ x ∈ db, x.id ≠ m.id) :
    getById (updateEstadoById (db ++ [m]) m.id e) m.id = some { m with estado := e } := by
  induction db with
  | nil =>
    simp only [updateEstadoById, getById, List.nil_append, List.map_cons, List.map_nil,
      if_pos trivial]
    exact List.find?_cons_of_pos _ (by simp)
  | cons hd tl ih =>
    have hne : hd.id ≠ m.id := hfresh hd (by simp)
    have ihh := ih (fun x hx => hfresh x (by simp [hx]))
    simp only [updateEstadoById, getById, List.cons_append, List.map_cons] at ihh ⊢
    rw [if_neg hne, List.find?_cons_of_neg _ (by simp [hne])]
    exact ihh

theorem getById_append_fresh (db : List Message) (m : Message)
    (hfresh : ∀ x ∈ db, x.id ≠ m.id) :
    getById (db ++ [m]) m.id = some m := by
  induction db with
  | nil =>
    simp only [getById, List.nil_append]
    exact List.find?_cons_of_pos _ (by simp)
  | cons hd tl ih =>
    have hne : hd.id ≠ m.id := hfresh hd (by simp)
    have ihh := ih (fun x hx => hfresh x (by simp [hx]))
    simp only [getById, List.cons_append] at ihh ⊢
    rw [List.find?_cons_of_neg _ (by simp [hne])]
    exact ihh

/-- k successive send-rate checks by one user at a fixed time `now`,
threading the `rateLimits` map through. -/
def repeatSends (now : Nat) (uid : UserId) :
    Nat → List (Str × RateLimitEntry) → List (Str × RateLimitEntry)
  | 0, rl => rl
  | k + 1, rl => (checkRateLimit now (repeatSends now uid k rl) uid).2

theorem repeatSends_state (now : Nat) (uid : UserId) :
    ∀ k, 1 ≤ k → k ≤ RATE_LIMIT_MAX →
      mapGet (repeatSends now uid k []) uid = some ⟨k, now + RATE_LIMIT_WINDOW⟩ ∧
      (checkRateLimit now (repeatSends now uid (k - 1) []) uid).1 = true := by
  intro k
  induction k with
  | zero => intro h1 _; omega
  | succ k ih =>
    intro _ hle
    by_cases hk : k = 0
    · subst hk
      constructor
      · show mapGet (checkRateLimit now (repeatSends now uid 0 []) uid).2 uid = _
        simp [repeatSends, checkRateLimit, mapGet, mapSet]
      · simp [repeatSends, checkRateLimit, mapGet]
    · have h1 : 1 ≤ k := Nat.one_le_iff_ne_zero.mpr hk
      have h2 : k ≤ RATE_LIMIT_MAX := by omega
      obtain ⟨ihg, _⟩ := ih h1 h2
      have hnolate : ¬ now > now + RATE_LIMIT_WINDOW := by omega
      have hcount : ¬ k ≥ RATE_LIMIT_MAX := by
        simp only [RATE_LIMIT_MAX] at hle ⊢; omega
      constructor
      · show mapGet (checkRateLimit now (repeatSends now uid (k + 1 - 1) []) uid).2 uid = _
        simp only [Nat.add_sub_cancel]
        rw [checkRateLimit, ihg]
        simp only [hnolate, if_false, hcount, if_false]
        exact mapGet_mapSet_same _ _ _
      · show (checkRateLimit now (repeatSends now uid (k + 1 - 1) []) uid).1 = true
        simp only [Nat.add_sub_cancel]
        rw [checkRateLimit, ihg]
        simp [hnolate, hcount]

/-- Claim C6: the rate limiter is a lazy fixed window with length
`RATE_LIMIT_WINDOW` and limit `RATE_LIMIT_MAX`: a check with no window
or with `now` past `resetAt` installs `{count 1, resetAt now + W}` and
allows; a check with `count < M` increments and allows; a check with
`count ≥ M` rejects and leaves the map unchanged; hence the (M+1)th and
later attempts inside one window are all rejected, while a first attempt
after the window has expired is allowed again. -/
theorem checkRateLimit_fixed_window (now now2 : Nat)
    (rl : List (Str × RateLimitEntry)) (uid : UserId) :
    ((mapGet rl uid = none →
        checkRateLimit now rl uid = (true, mapSet rl uid ⟨1, now + RATE_LIMIT_WINDOW⟩))
     ∧ (∀ e, mapGet rl uid = some e → now > e.resetAt →
        checkRateLimit now rl uid = (true, mapSet rl uid ⟨1, now + RATE_LIMIT_WINDOW⟩)))
    ∧ (∀ e, mapGet rl uid = some e → ¬ now > e.resetAt → e.count < RATE_LIMIT_MAX →
        checkRateLimit now rl uid = (true, mapSet rl uid ⟨e.count + 1, e.resetAt⟩))
    ∧ (∀ e, mapGet rl uid = some e → ¬ now > e.resetAt → e.count ≥ RATE_LIMIT_MAX →
        checkRateLimit now rl uid = (false, rl))
    ∧ (checkRateLimit now (repeatSends now uid RATE_LIMIT_MAX []) uid =
        (false, repeatSends now uid RATE_LIMIT_MAX [])
     ∧ (now2 > now + RATE_LIMIT_WINDOW →
        (checkRateLimit now2 (repeatSends now uid RATE_LIMIT_MAX []) uid).1 = true)) := by
  refine ⟨⟨?_, ?_⟩, ?_, ?_, ?_, ?_⟩
  · intro h
    rw [checkRateLimit, h]
  · intro e he hlate
    rw [checkRateLimit, he]
    simp [hlate]
  · intro e he hlive hlt
    rw [checkRateLimit, he]
    simp [hlive, Nat.not_le.mpr hlt]
  · intro e he hlive hge
    rw [checkRateLimit, he]
    simp [hlive, hge]
  · have hfull := (repeatSends_state now uid RATE_LIMIT_MAX (by simp [RATE_LIMIT_MAX])
      (le_refl _)).1
    rw [checkRateLimit, hfull]
    have hnolate : ¬ now > now + RATE_LIMIT_WINDOW := by omega
    simp [hnolate]
  · intro hpast
    have hfull := (repeatSends_state now uid RATE_LIMIT_MAX (by simp [RATE_LIMIT_MAX])
      (le_refl _)).1
    rw [checkRateLimit, hfull]
    simp [hpast]

/-- Witness for C6 at concrete inputs: a first check for a fresh user at
time 0 is allowed and installs count 1 with resetAt 60000, and a check at
count 100 inside the window is rejected without changing the map. -/
theorem checkRateLimit_fixed_window_witness :
    checkRateLimit 0 [] ['u'] = (true, [((['u'] : Str), (⟨1, 60000⟩ : RateLimitEntry))])
    ∧ checkRateLimit 5 [((['u'] : Str), (⟨100, 60000⟩ : RateLimitEntry))] ['u'] =
        (false, [((['u'] : Str), (⟨100, 60000⟩ : RateLimitEntry))]) := by
  constructor
  · have h := (checkRateLimit_fixed_window 0 0 [] ['u']).1.1 (by rfl)
    simpa [mapSet, RATE_LIMIT_WINDOW] using h
  · have h := (checkRateLimit_fixed_window 5 0 [((['u'] : Str), (⟨100, 60000⟩ : RateLimitEntry))]
      ['u']).2.2.1 ⟨100, 60000⟩ (by rfl) (by decide) (by decide)
    exact h

/-- Claim C9: in send_message the content is trimmed and rejected with a
validation error, before any persistence call, exactly when the trimmed
content is empty or longer than 5000 units; trimmed content of length 1
to 5000 passes the validation. The rejected call leaves the message
table untouched and performs no insert action. -/
theorem content_validation_iff (xssFn : Str → Str)
    (conectados : List (Str × SocketId)) (db : List Message)
    (rl : List (Str × RateLimitEntry)) (uid : UserId) (ssock : SocketId)
    (toId : Str) (c : Str) (now nextId : Nat) (insertOk : Bool)
    (hrl : (checkRateLimit now rl uid).1 = true) (hto : toId ≠ []) :
    (sanitizeMessage xssFn (.vstr c) = none ↔
      (jsTrim c).length = 0 ∨ (jsTrim c).length > 5000)
    ∧ ((jsTrim c).length = 0 ∨ (jsTrim c).length > 5000 →
        sendMessage xssFn conectados db rl uid ssock (.vstr toId) (.vstr c) now nextId insertOk
          = ⟨db, (checkRateLimit now rl uid).2,
             [.emit ssock (.errorEv "Mensaje inválido. Debe tener entre 1 y 5000 caracteres.".data)]⟩)
    ∧ (1 ≤ (jsTrim c).length → (jsTrim c).length ≤ 5000 →
        sanitizeMessage xssFn (.vstr c) = some (xssFn (jsTrim c))) := by
  refine ⟨?_, ?_, ?_⟩
  · by_cases h : (jsTrim c).length = 0 ∨ (jsTrim c).length > 5000
    · simp only [sanitizeMessage, if_pos h]
      simpa using h
    · simp only [sanitizeMessage, if_neg h]
      exact iff_of_false (by simp) h
  · intro h
    have hsan : sanitizeMessage xssFn (.vstr c) = none := by
      simp only [sanitizeMessage, if_pos h]
    simp [sendMessage, hrl, hsan, hto]
  · intro h1 h2
    have h : ¬ ((jsTrim c).length = 0 ∨ (jsTrim c).length > 5000) := by omega
    simp only [sanitizeMessage, if_neg h]

/-- Witness for C9: a content of one space trims to the empty string and
the concrete call is rejected with the validation error, with the table
left empty. -/
theorem content_validation_iff_witness :
    sendMessage id [] [] [] ['u'] ['s'] (.vstr ['b']) (.vstr [' ']) 0 0 true
      = ⟨[], [((['u'] : Str), (⟨1, 60000⟩ : RateLimitEntry))],
         [.emit ['s'] (.errorEv "Mensaje inválido. Debe tener entre 1 y 5000 caracteres.".data)]⟩ := by
  have h := (content_validation_iff id [] [] [] ['u'] ['s'] ['b'] [' '] 0 0 true
    (by rfl) (by decide)).2.1 (by decide)
  simpa [checkRateLimit, mapGet, mapSet, RATE_LIMIT_WINDOW] using h

/-- Claim C1: for a send_message with a valid recipient and valid content
that is successfully persisted, if the receiver has a presence entry at
send time the resulting message row has estado `entregado` and exactly
one `new_message` event is emitted to the receiver socket; if the
receiver has no entry, the row keeps estado `enviado` and every emitted
event goes to the sender socket, none to the receiver. -/
theorem send_message_presence_delivery (xssFn : Str → Str)
    (conectados : List (Str × SocketId)) (db : List Message)
    (rl : List (Str × RateLimitEntry)) (uid : UserId) (ssock : SocketId)
    (toId : Str) (content : JsVal) (now nextId : Nat) (s : Str)
    (hrl : (checkRateLimit now rl uid).1 = true)
    (hto : toId ≠ [])
    (hsan : sanitizeMessage xssFn content = some s)
    (hfresh : ∀ x ∈ db, x.id ≠ nextId) :
    (∀ rsock, mapGet conectados toId = some rsock →
      getById (sendMessage xssFn conectados db rl uid ssock (.vstr toId) content now nextId true).db nextId
        = some ⟨nextId, uid, toId, s, .entregado, now⟩
      ∧ (sendMessage xssFn conectados db rl uid ssock (.vstr toId) content now nextId true).actions.countP
          (fun a => isNewMessageTo rsock a) = 1)
    ∧ (mapGet conectados toId = none →
      getById (sendMessage xssFn conectados db rl uid ssock (.vstr toId) content now nextId true).db nextId
        = some ⟨nextId, uid, toId, s, .enviado, now⟩
      ∧ ∀ t e, ChatAction.emit t e ∈ (sendMessage xssFn conectados db rl uid ssock (.vstr toId) content now nextId true).actions → t = ssock) := by
  constructor
  · intro rsock hpres
    rw [sendMessage_success_present xssFn conectados db rl uid ssock toId content now
      nextId rsock s hrl hto hsan hpres]
    constructor
    · simpa using getById_updateEstado_append db ⟨nextId, uid, toId, s, .enviado, now⟩
        .entregado hfresh
    · simp [isNewMessageTo, List.countP_cons]
  · intro hpres
    rw [sendMessage_success_absent xssFn conectados db rl uid ssock toId content now
      nextId s hrl hto hsan hpres]
    constructor
    · simpa using getById_append_fresh db ⟨nextId, uid, toId, s, .enviado, now⟩ hfresh
    · intro t e hmem
      simp only [List.mem_cons, List.not_mem_nil, or_false] at hmem
      rcases hmem with h | h
      · exact absurd h (by simp)
      · exact (ChatAction.emit.injEq _ _ _ _).mp h |>.1

/-- Witness for C1: a concrete send from user a to user b while b has a
registered socket results in a delivered row and one `new_message` to
that socket. -/
theorem send_message_presence_delivery_witness :
    getById (sendMessage id [((['b'] : Str), (['B'] : SocketId))] [] [] ['a'] ['A']
        (.vstr ['b']) (.vstr ['h']) 0 0 true).db 0
      = some ⟨0, ['a'], ['b'], ['h'], .entregado, 0⟩
    ∧ (sendMessage id [((['b'] : Str), (['B'] : SocketId))] [] [] ['a'] ['A']
        (.vstr ['b']) (.vstr ['h']) 0 0 true).actions.countP
          (fun a => isNewMessageTo ['B'] a) = 1 :=
  (send_message_presence_delivery id [((['b'] : Str), (['B'] : SocketId))] [] [] ['a'] ['A']
    ['b'] (.vstr ['h']) 0 0 ['h'] (by rfl) (by decide) (by decide) (by simp)).1 ['B'] (by rfl)

/-- Claim C7: in every successfully persisted send_message execution,
the persistence write creating the message row precedes, in the ordered
action list of the handler, every emission of a `new_message`,
`message_delivered` or `message_sent` event. -/
theorem persist_before_notify (xssFn : Str → Str)
    (conectados : List (Str × SocketId)) (db : List Message)
    (rl : List (Str × RateLimitEntry)) (uid : UserId) (ssock : SocketId)
    (toId : Str) (content : JsVal) (now nextId : Nat) (s : Str)
    (hrl : (checkRateLimit now rl uid).1 = true)
    (hto : toId ≠ [])
    (hsan : sanitizeMessage xssFn content = some s) :
    ∀ j, ∀ hj : j < (sendMessage xssFn conectados db rl uid ssock (.vstr toId) content now nextId true).actions.length,
      isNotifyEmit ((sendMessage xssFn conectados db rl uid ssock (.vstr toId) content now nextId true).actions.get ⟨j, hj⟩) = true →
      ∃ i, ∃ hi : i < (sendMessage xssFn conectados db rl uid ssock (.vstr toId) content now nextId true).actions.length,
        i < j ∧ isCreateInsert ((sendMessage xssFn conectados db rl uid ssock (.vstr toId) content now nextId true).actions.get ⟨i, hi⟩) = true := by
  cases hpres : mapGet conectados toId with
  | some rsock =>
    rw [sendMessage_success_present xssFn conectados db rl uid ssock toId content now
      nextId rsock s hrl hto hsan hpres]
    intro j hj hnot
    cases j with
    | zero => simp [isNotifyEmit] at hnot
    | succ j' => exact ⟨0, by simp, by omega, by simp [isCreateInsert]⟩
  | none =>
    rw [sendMessage_success_absent xssFn conectados db rl uid ssock toId content now
      nextId s hrl hto hsan hpres]
    intro j hj hnot
    cases j with
    | zero => simp [isNotifyEmit] at hnot
    | succ j' => exact ⟨0, by simp, by omega, by simp [isCreateInsert]⟩

/-- Witness for C7: in the concrete delivered execution, the
`new_message` emission at position 1 is preceded by the insert at
position 0. -/
theorem persist_before_notify_witness :
    ∃ i, ∃ hi : i < (sendMessage id [((['b'] : Str), (['B'] : SocketId))] [] [] ['a'] ['A']
        (.vstr ['b']) (.vstr ['h']) 0 0 true).actions.length,
      i < 1 ∧ isCreateInsert ((sendMessage id [((['b'] : Str), (['B'] : SocketId))] [] [] ['a'] ['A']
        (.vstr ['b']) (.vstr ['h']) 0 0 true).actions.get ⟨i, hi⟩) = true :=
  persist_before_notify id [((['b'] : Str), (['B'] : SocketId))] [] [] ['a'] ['A']
    ['b'] (.vstr ['h']) 0 0 ['h'] (by rfl) (by decide) (by decide) 1 (by decide) (by decide)

/-- Claim C8: every successfully persisted send_message emits exactly one
`message_sent` acknowledgement to the sender socket; its payload has the
fields id, to, content, created_at, estado, and the estado field carries
the resulting state of the row: `entregado` when the receiver was
present, `enviado` otherwise. -/
theorem message_sent_ack (xssFn : Str → Str)
    (conectados : List (Str × SocketId)) (db : List Message)
    (rl : List (Str × RateLimitEntry)) (uid : UserId) (ssock : SocketId)
    (toId : Str) (content : JsVal) (now nextId : Nat) (s : Str)
    (hrl : (checkRateLimit now rl uid).1 = true)
    (hto : toId ≠ [])
    (hsan : sanitizeMessage xssFn content = some s)
    (hfresh : ∀ x ∈ db, x.id ≠ nextId) :
    ∃ e : Estado,
      (e = match mapGet conectados toId with
           | some _ => Estado.entregado
           | none => Estado.enviado)
      ∧ (sendMessage xssFn conectados db rl uid ssock (.vstr toId) content now nextId true).actions.countP
          (fun a => isMessageSentTo ssock a) = 1
      ∧ ChatAction.emit ssock (.messageSent ⟨nextId, toId, s, now, e⟩)
          ∈ (sendMessage xssFn conectados db rl uid ssock (.vstr toId) content now nextId true).actions
      ∧ getById (sendMessage xssFn conectados db rl uid ssock (.vstr toId) content now nextId true).db nextId
          = some ⟨nextId, uid, toId, s, e, now⟩ := by
  cases hpres : mapGet conectados toId with
  | some rsock =>
    refine ⟨.entregado, rfl, ?_, ?_, ?_⟩ <;>
      rw [sendMessage_success_present xssFn conectados db rl uid ssock toId content now
        nextId rsock s hrl hto hsan hpres]
    · simp [isMessageSentTo, List.countP_cons]
    · simp
    · simpa using getById_updateEstado_append db ⟨nextId, uid, toId, s, .enviado, now⟩
        .entregado hfresh
  | none =>
    refine ⟨.enviado, rfl, ?_, ?_, ?_⟩ <;>
      rw [sendMessage_success_absent xssFn conectados db rl uid ssock toId content now
        nextId s hrl hto hsan hpres]
    · simp [isMessageSentTo, List.countP_cons]
    · simp
    · simpa using getById_append_fresh db ⟨nextId, uid, toId, s, .enviado, now⟩ hfresh

/-- Witness for C8: concrete offline send, with the acknowledgement
carrying estado `enviado`. -/
theorem message_sent_ack_witness :
    ∃ e : Estado,
      (e = match mapGet ([] : List (Str × SocketId)) ['b'] with
           | some _ => Estado.entregado
           | none => Estado.enviado)
      ∧ (sendMessage id [] [] [] ['a'] ['A'] (.vstr ['b']) (.vstr ['h']) 0 0 true).actions.countP
          (fun a => isMessageSentTo ['A'] a) = 1
      ∧ ChatAction.emit ['A'] (.messageSent ⟨0, ['b'], ['h'], 0, e⟩)
          ∈ (sendMessage id [] [] [] ['a'] ['A'] (.vstr ['b']) (.vstr ['h']) 0 0 true).actions
      ∧ getById (sendMessage id [] [] [] ['a'] ['A'] (.vstr ['b']) (.vstr ['h']) 0 0 true).db 0
          = some ⟨0, ['a'], ['b'], ['h'], e, 0⟩ :=
  message_sent_ack id [] [] [] ['a'] ['A'] ['b'] (.vstr ['h']) 0 0 ['h']
    (by rfl) (by decide) (by decide) (by simp)

/-- Claim C10: for every accepted send_message, the content persisted in
the new row and the contents echoed in the `new_message` and
`message_sent` events all equal the sanitizer applied to the trimmed
input, for every sanitizer function; the persisted content coincides
with the raw submitted content exactly when the sanitized trimmed input
equals the raw input. -/
theorem sanitized_content_dataflow (xssFn : Str → Str)
    (conectados : List (Str × SocketId)) (db : List Message)
    (rl : List (Str × RateLimitEntry)) (uid : UserId) (ssock : SocketId)
    (toId : Str) (c : Str) (now nextId : Nat)
    (hrl : (checkRateLimit now rl uid).1 = true)
    (hto : toId ≠ [])
    (hlen1 : 1 ≤ (jsTrim c).length) (hlen2 : (jsTrim c).length ≤ 5000)
    (hfresh : ∀ x ∈ db, x.id ≠ nextId) :
    (∃ m, getById (sendMessage xssFn conectados db rl uid ssock (.vstr toId) (.vstr c) now nextId true).db nextId = some m
        ∧ m.contenido = xssFn (jsTrim c)
        ∧ (m.contenido = c ↔ xssFn (jsTrim c) = c))
    ∧ (∀ t mid f cc ca, ChatAction.emit t (.newMessage mid f cc ca)
        ∈ (sendMessage xssFn conectados db rl uid ssock (.vstr toId) (.vstr c) now nextId true).actions → cc = xssFn (jsTrim c))
    ∧ (∀ t p, ChatAction.emit t (.messageSent p)
        ∈ (sendMessage xssFn conectados db rl uid ssock (.vstr toId) (.vstr c) now nextId true).actions → p.content = xssFn (jsTrim c)) := by
  have hsan : sanitizeMessage xssFn (.vstr c) = some (xssFn (jsTrim c)) := by
    have h : ¬ ((jsTrim c).length = 0 ∨ (jsTrim c).length > 5000) := by omega
    simp only [sanitizeMessage, if_neg h]
  cases hpres : mapGet conectados toId with
  | some rsock =>
    rw [sendMessage_success_present xssFn conectados db rl uid ssock toId (.vstr c) now
      nextId rsock (xssFn (jsTrim c)) hrl hto hsan hpres]
    refine ⟨⟨⟨nextId, uid, toId, xssFn (jsTrim c), .entregado, now⟩, ?_, rfl, Iff.rfl⟩, ?_, ?_⟩
    · simpa using getById_updateEstado_append db
        ⟨nextId, uid, toId, xssFn (jsTrim c), .enviado, now⟩ .entregado hfresh
    · intro t mid f cc ca hmem
      simp only [List.mem_cons, List.not_mem_nil, or_false] at hmem
      rcases hmem with h | h | h | h | h <;> simp_all
    · intro t p hmem
      simp only [List.mem_cons, List.not_mem_nil, or_false] at hmem
      rcases hmem with h | h | h | h | h <;> simp_all
  | none =>
    rw [sendMessage_success_absent xssFn conectados db rl uid ssock toId (.vstr c) now
      nextId (xssFn (jsTrim c)) hrl hto hsan hpres]
    refine ⟨⟨⟨nextId, uid, toId, xssFn (jsTrim c), .enviado, now⟩, ?_, rfl, Iff.rfl⟩, ?_, ?_⟩
    · simpa using getById_append_fresh db
        ⟨nextId, uid, toId, xssFn (jsTrim c), .enviado, now⟩ hfresh
    · intro t mid f cc ca hmem
      simp only [List.mem_cons, List.not_mem_nil, or_false] at hmem
      rcases hmem with h | h <;> simp_all
    · intro t p hmem
      simp only [List.mem_cons, List.not_mem_nil, or_false] at hmem
      rcases hmem with h | h <;> simp_all

/-- Witness for C10: with a sanitizer that rewrites every content to a
fixed string, the persisted content is the sanitized one, not the raw
input. -/
theorem sanitized_content_dataflow_witness :
    ∃ m, getById (sendMessage (fun _ => ['X']) [] [] [] ['a'] ['A']
        (.vstr ['b']) (.vstr ['<']) 0 0 true).db 0 = some m
      ∧ m.contenido = (fun (_ : Str) => (['X'] : Str)) (jsTrim ['<'])
      ∧ (m.contenido = ['<'] ↔ (fun (_ : Str) => (['X'] : Str)) (jsTrim ['<']) = ['<']) :=
  (sanitized_content_dataflow (fun _ => ['X']) [] [] [] ['a'] ['A'] ['b'] ['<'] 0 0
    (by rfl) (by decide) (by decide) (by decide) (by simp)).1

/-! ## Lemmas for the mark_seen claims -/

theorem markSeen_fst (conectados : List (Str × SocketId)) (db : List Message)
    (uid : UserId) (csock : SocketId) (mid : Nat) :
    (markSeen conectados db uid csock (some mid)).1 = updateSeen db mid uid := by
  rcases h : seenAffected db mid uid with _ | ⟨row, _ | ⟨r2, tl⟩⟩ <;>
    simp [markSeen, h]

theorem updateSeen_no_match (db : List Message) (mid : Nat) (uid : UserId)
    (h : ∀ m ∈ db, ¬(m.id = mid ∧ m.receiver_id = uid)) :
    updateSeen db mid uid = db := by
  induction db with
  | nil => rfl
  | cons hd tl ih =>
    have hhd := h hd (by simp)
    have ihh := ih (fun x hx => h x (by simp [hx]))
    simp only [updateSeen, List.map_cons] at ihh ⊢
    rw [if_neg hhd]
    exact congrArg (hd :: ·) ihh

/-- Claim C2: the mark_seen update is constrained to the row whose
receiver is the caller, so a caller who is not the addressed receiver
never changes any row; and when zero rows are affected — whether the
message does not exist or the caller is not its receiver — the handler
performs the same fixed action list, emitting one generic error to the
caller that does not distinguish the two cases. -/
theorem mark_seen_receiver_constraint (conectados : List (Str × SocketId))
    (db : List Message) (uid : UserId) (csock : SocketId) (mid : Nat) :
    (∀ (i : Nat) (m : Message), db[i]? = some m → m.receiver_id ≠ uid →
      (markSeen conectados db uid csock (some mid)).1[i]? = some m)
    ∧ ((∀ m ∈ db, ¬(m.id = mid ∧ m.receiver_id = uid)) →
      (markSeen conectados db uid csock (some mid)).1 = db
      ∧ (markSeen conectados db uid csock (some mid)).2 =
          [.dbUpdateSeen mid uid,
           .emit csock (.errorEv "Error al actualizar estado".data)]) := by
  constructor
  · intro i m hi hrec
    rw [markSeen_fst]
    have hnc : ¬ (m.id = mid ∧ m.receiver_id = uid) := fun hcon => hrec hcon.2
    simp only [updateSeen, List.getElem?_map, hi, Option.map_some', if_neg hnc]
  · intro h
    have hnil : seenAffected db mid uid = [] := by
      simp only [seenAffected, List.filter_eq_nil_iff]
      intro a ha
      simpa using h a ha
    constructor
    · rw [markSeen_fst]
      exact updateSeen_no_match db mid uid h
    · simp [markSeen, hnil]

/-- Witness for C2: a caller who is not the receiver of the single
stored message changes nothing and gets the generic error. -/
theorem mark_seen_receiver_constraint_witness :
    (markSeen [] [⟨0, ['a'], ['b'], ['h'], .enviado, 0⟩] ['z'] ['Z'] (some 0)).1
      = [⟨0, ['a'], ['b'], ['h'], .enviado, 0⟩]
    ∧ (markSeen [] [⟨0, ['a'], ['b'], ['h'], .enviado, 0⟩] ['z'] ['Z'] (some 0)).2
      = [.dbUpdateSeen 0 ['z'],
         .emit ['Z'] (.errorEv "Error al actualizar estado".data)] :=
  (mark_seen_receiver_constraint [] [⟨0, ['a'], ['b'], ['h'], .enviado, 0⟩] ['z'] ['Z'] 0).2
    (by decide)

/-! ## The estado mutations as database writes

After a row is created, the subsystem issues exactly two kinds of writes
on it: the unconditional update to `entregado` from send_message (lines
158-161) and the receiver-constrained update to `visto` from mark_seen
(lines 199-203). Both are fire-and-detached requests to the store, so
their serialization order at the store is an interleaving the handlers
do not control. -/

inductive DbWrite where
  | delivered (id : Nat)
  | seen (id : Nat) (caller : UserId)
deriving DecidableEq

def applyWrite (db : List Message) : DbWrite → List Message
  | .delivered i => updateEstadoById db i .entregado
  | .seen i u => updateSeen db i u

def applyWrites (db : List Message) (ops : List DbWrite) : List Message :=
  ops.foldl applyWrite db

/-- Counterexample to claim C3: starting from a freshly created row in
estado `enviado`, the interleaving in which the receiver's mark_seen
write is serialized before the delivered update of the very send that
created the row moves the state to `visto` and then back to
`entregado` — a regression in the order SENT < DELIVERED < SEEN. -/
theorem message_state_regression_cex :
    getById (applyWrites [⟨0, ['a'], ['b'], ['h'], .enviado, 0⟩]
        [.seen 0 ['b']]) 0
      = some ⟨0, ['a'], ['b'], ['h'], .visto, 0⟩
    ∧ getById (applyWrites [⟨0, ['a'], ['b'], ['h'], .enviado, 0⟩]
        [.seen 0 ['b'], .delivered 0]) 0
      = some ⟨0, ['a'], ['b'], ['h'], .entregado, 0⟩
    ∧ Estado.rank .entregado < Estado.rank .visto := by decide

/-- Amended claim C3: every write the subsystem issues after creation
mutates only the estado field, leaving id, sender, receiver, content and
creation time unchanged; the mark_seen write never lowers the state; and
the delivered write never lowers the state except on a row that is
already `visto`, which it regresses to `entregado`. -/
theorem estado_only_mutation_and_forward (db : List Message) (i : Nat) (u : UserId) :
    (∀ w : DbWrite, (applyWrite db w).length = db.length
      ∧ ∀ (j : Nat) (m m' : Message), db[j]? = some m → (applyWrite db w)[j]? = some m' →
          m'.id = m.id ∧ m'.sender_id = m.sender_id ∧ m'.receiver_id = m.receiver_id
          ∧ m'.contenido = m.contenido ∧ m'.created_at = m.created_at)
    ∧ (∀ (j : Nat) (m m' : Message), db[j]? = some m →
        (applyWrite db (.seen i u))[j]? = some m' →
        m.estado.rank ≤ m'.estado.rank)
    ∧ (∀ (j : Nat) (m m' : Message), db[j]? = some m →
        (applyWrite db (.delivered i))[j]? = some m' →
        m.estado ≠ .visto → m.estado.rank ≤ m'.estado.rank) := by
  refine ⟨?_, ?_, ?_⟩
  · intro w
    constructor
    · cases w <;> simp [applyWrite, updateEstadoById, updateSeen]
    · intro j m m' hj hj'
      cases w with
      | delivered k =>
        simp only [applyWrite, updateEstadoById, List.getElem?_map, hj,
          Option.map_some', Option.some_inj] at hj'
        by_cases hid : m.id = k
        · rw [← hj', if_pos hid]
          simp
        · rw [← hj', if_neg hid]
          simp
      | seen k v =>
        simp only [applyWrite, updateSeen, List.getElem?_map, hj,
          Option.map_some', Option.some_inj] at hj'
        by_cases hid : m.id = k ∧ m.receiver_id = v
        · rw [← hj', if_pos hid]
          simp
        · rw [← hj', if_neg hid]
          simp
  · intro j m m' hj hj'
    simp only [applyWrite, updateSeen, List.getElem?_map, hj,
      Option.map_some', Option.some_inj] at hj'
    by_cases hid : m.id = i ∧ m.receiver_id = u
    · rw [← hj', if_pos hid]
      cases m.estado <;> simp [Estado.rank]
    · rw [← hj', if_neg hid]
  · intro j m m' hj hj' hnv
    simp only [applyWrite, updateEstadoById, List.getElem?_map, hj,
      Option.map_some', Option.some_inj] at hj'
    by_cases hid : m.id = i
    · rw [← hj', if_pos hid]
      cases hm : m.estado <;> simp_all [Estado.rank]
    · rw [← hj', if_neg hid]

/-- Witness for the amended C3 at a concrete row: the mark_seen write on
a delivered row keeps every non-estado field and raises the state. -/
theorem estado_only_mutation_and_forward_witness :
    (applyWrite [⟨0, ['a'], ['b'], ['h'], .entregado, 0⟩] (.seen 0 ['b'])).length = 1
    ∧ Estado.rank (Estado.entregado) ≤ Estado.rank (Estado.visto) := by
  constructor
  · exact ((estado_only_mutation_and_forward [⟨0, ['a'], ['b'], ['h'], .entregado, 0⟩]
      0 ['b']).1 (.seen 0 ['b'])).1
  · exact (estado_only_mutation_and_forward [⟨0, ['a'], ['b'], ['h'], .entregado, 0⟩]
      0 ['b']).2.1 0 ⟨0, ['a'], ['b'], ['h'], .entregado, 0⟩
      ⟨0, ['a'], ['b'], ['h'], .visto, 0⟩ (by decide) (by decide)

/-- Counterexample to claim C4: the disconnect handler deletes the
presence entry keyed on the identity alone, with no comparison against
the stored connection. After register(u, c1) then register(u, c2), a
disconnect event tied to c1 removes the entry, so lookup(u) is none
rather than c2 as the claim states. -/
theorem stale_disconnect_evicts_cex :
    mapGet (disconnectRemove
        (connectionRegister (connectionRegister [] ['u'] ['c', '1']) ['u'] ['c', '2'])
        ['u'] ['c', '1']) ['u'] = none
    ∧ (none : Option SocketId) ≠ some ['c', '2'] := by decide

/-- Amended claim C4: the disconnect-triggered removal deletes the
Presence Registry entry of the disconnecting identity unconditionally,
ignoring which connection the disconnect event is tied to: after
register(id, c1) then register(id, c2), a later disconnect tied to c1
leaves lookup(id) = none; entries of other identities are untouched. -/
theorem disconnect_removes_unconditionally (m : List (Str × SocketId))
    (u u' : UserId) (c1 c2 sock : SocketId) :
    mapGet (disconnectRemove (connectionRegister (connectionRegister m u c1) u c2) u sock) u = none
    ∧ (u' ≠ u → mapGet (disconnectRemove m u sock) u' = mapGet m u') := by
  constructor
  · exact mapGet_mapDelete_same _ _
  · intro hne
    exact mapGet_mapDelete_other m u u' (fun h => hne h.symm)

/-- Witness for the amended C4 at concrete identities and connections. -/
theorem disconnect_removes_unconditionally_witness :
    mapGet (disconnectRemove
        (connectionRegister (connectionRegister [] ['u'] ['c', '1']) ['u'] ['c', '2'])
        ['u'] ['c', '1']) ['u'] = none
    ∧ mapGet (disconnectRemove [((['v'] : Str), (['V'] : SocketId))] ['u'] ['c', '1']) ['v']
      = mapGet [((['v'] : Str), (['V'] : SocketId))] ['v'] := by
  constructor
  · exact (disconnect_removes_unconditionally [] ['u'] ['v'] ['c', '1'] ['c', '2'] ['c', '1']).1
  · exact (disconnect_removes_unconditionally [((['v'] : Str), (['V'] : SocketId))]
      ['u'] ['v'] ['c', '1'] ['c', '2'] ['c', '1']).2 (by decide)

/-- Counterexample to claim C5: a send_message whose `to` field is
malformed is rejected with the validation error and nothing is
persisted, but the call is not free of side effects: the rate limit
check runs before recipient validation, so the rejected call installs a
fresh RateLimitWindow for the caller, changing its count and resetAt. -/
theorem invalid_recipient_rate_consumed_cex :
    sendMessage id [] [] [] ['u'] ['s'] .vother (.vstr ['h', 'i']) 0 0 true
      = ⟨[], [((['u'] : Str), (⟨1, 60000⟩ : RateLimitEntry))],
         [.emit ['s'] (.errorEv "Destinatario inválido".data)]⟩
    ∧ ([] : List (Str × RateLimitEntry)) ≠ [((['u'] : Str), (⟨1, 60000⟩ : RateLimitEntry))] := by
  decide

/-- Amended claim C5: for every send_message whose `to` field is absent
or malformed (a non-string or the empty string) and which passes the
rate limit check, the call fails with the validation error and attempts
no persistence — the message table is unchanged and the only action is
the error emit to the sender — but the caller's RateLimitWindow is
updated exactly as by a successful rate limit check, because the rate
limit check precedes recipient validation. -/
theorem invalid_recipient_validation (xssFn : Str → Str)
    (conectados : List (Str × SocketId)) (db : List Message)
    (rl : List (Str × RateLimitEntry)) (uid : UserId) (ssock : SocketId)
    (content : JsVal) (now nextId : Nat) (insertOk : Bool)
    (hrl : (checkRateLimit now rl uid).1 = true) :
    sendMessage xssFn conectados db rl uid ssock .vother content now nextId insertOk
      = ⟨db, (checkRateLimit now rl uid).2,
         [.emit ssock (.errorEv "Destinatario inválido".data)]⟩
    ∧ sendMessage xssFn conectados db rl uid ssock (.vstr []) content now nextId insertOk
      = ⟨db, (checkRateLimit now rl uid).2,
         [.emit ssock (.errorEv "Destinatario inválido".data)]⟩ := by
  constructor
  · simp [sendMessage, hrl]
  · simp [sendMessage, hrl]

/-- Witness for the amended C5 at concrete inputs: the malformed-`to`
call leaves the table empty, emits the single validation error, and
installs the window entry {count 1, resetAt 60000}. -/
theorem invalid_recipient_validation_witness :
    sendMessage id [] [] [] ['u'] ['s'] .vother (.vstr ['h', 'i']) 0 0 true
      = ⟨[], [((['u'] : Str), (⟨1, 60000⟩ : RateLimitEntry))],
         [.emit ['s'] (.errorEv "Destinatario inválido".data)]⟩ := by
  have h := (invalid_recipient_validation id [] [] [] ['u'] ['s']
    (.vstr ['h', 'i']) 0 0 true (by rfl)).1
  simpa [checkRateLimit, mapGet, mapSet, RATE_LIMIT_WINDOW] using h
